import Mathlib

/-!
Shallow embedding of `src/LogisticRegression/logisticregression.py`: a binary
logistic-regression classifier trained by batch gradient descent with optional
early stopping on a validation set.

Numpy 1-d arrays are embedded as `List ℝ`, 2-d arrays as `List (List ℝ)` (a
list of rows).  The printing and plotting side effects of `fit`
(lines 111-113, 121-122 and 143-153 of the source, together with the
`train_losses` / `val_losses` accumulators of lines 99-100 that feed only the
plot) are incidental I/O and are omitted from the numerical state; the
`print_loss` / `plot_loss` parameters are kept in the signature of `fit` but
influence only that omitted I/O.
-/

namespace LogReg

/-- Rows-of-reals embedding of a 2-d numpy array. -/
abbrev Mat := List (List ℝ)

/-- Embedding of `np.dot` on two 1-d arrays: the sum of elementwise products. -/
noncomputable def dot (v w : List ℝ) : ℝ :=
  (List.zipWith (fun a b => a * b) v w).sum

/-- Embedding of `np.dot(X, w)` for a 2-d `X` and 1-d `w`: one dot product per row. -/
noncomputable def matVec (X : Mat) (w : List ℝ) : List ℝ :=
  X.map (fun row => dot row w)

/-- Embedding of numpy `X.T` for a rectangular N-by-F array `X`: row `j` of the
transpose is column `j` of `X` (the number of columns is read off the first row,
as `X_train.shape` does on line 95 of the source). -/
def transposeMat (X : Mat) : Mat :=
  (List.range (X.headD []).length).map (fun j => X.map (fun row => row.getD j 0))

/-- Embedding of `np.mean`: the sum divided by the length. -/
noncomputable def mean (l : List ℝ) : ℝ := l.sum / (l.length : ℝ)

/-- Source lines 53-68: `sigmoid(Z) = 1 / (1 + np.exp(-Z))`, the scalar function
that the source applies elementwise. -/
noncomputable def sigmoid (z : ℝ) : ℝ := 1 / (1 + Real.exp (-z))

/-- Source lines 106-107 (and 117-118, 169-170): `y_pred = sigmoid(np.dot(X, w) + b)`. -/
noncomputable def yPredOn (X : Mat) (w : List ℝ) (b : ℝ) : List ℝ :=
  (((matVec X w).map (fun z => z + b)).map sigmoid)

/-- Source lines 108-109 (and 119-120): the averaged binary cross-entropy loss
`np.mean(-(y * log(y_pred) + (1 - y) * log(1 - y_pred)))` of labels `y` against
the predictions of parameters `(w, b)` on `X`. -/
noncomputable def lossOn (X : Mat) (y : List ℝ) (w : List ℝ) (b : ℝ) : ℝ :=
  mean (List.zipWith
    (fun yt yp => -(yt * Real.log yp + (1 - yt) * Real.log (1 - yp)))
    y (yPredOn X w b))

/-- Source lines 45-51: the `LogisticRegression` class.  `weights` and `bias`
are `None` until `fit` has run, so they are embedded as options. -/
structure LogisticRegression where
  weights : Option (List ℝ)
  bias : Option ℝ
  threshold : ℝ
  learning_rate : ℝ
  max_iteration : ℕ
  patience : Option ℕ

/-- Source line 45: the constructor stores the configuration and leaves
`weights` and `bias` unset. -/
def LogisticRegression.mkInit (learning_rate : ℝ) (max_iteration : ℕ)
    (patience : Option ℕ) (threshold : ℝ) : LogisticRegression :=
  { weights := none, bias := none, threshold := threshold,
    learning_rate := learning_rate, max_iteration := max_iteration,
    patience := patience }

/-- The mutable numerical state of one `fit` call: the parameters being trained
(lines 96-97), the best validation loss seen so far (line 102, where the Python
initial value `float('inf')` is embedded as `none`), and the non-improvement
counter (line 103). -/
structure FitState where
  weights : List ℝ
  bias : ℝ
  best_loss : Option ℝ
  no_improvement_count : ℕ

/-- Source lines 124-129: the improvement bookkeeping on the validation loss.
`best_loss = none` stands for the initial `float('inf')`, which every real
`val_loss` strictly improves on.  Returns the new `(best_loss,
no_improvement_count)` pair. -/
noncomputable def applyImprovement (val_loss : ℝ) (best_loss : Option ℝ)
    (cnt : ℕ) : Option ℝ × ℕ :=
  match best_loss with
  | none => (some val_loss, 0)
  | some b => if val_loss < b then (some val_loss, 0) else (some b, cnt + 1)

/-- Source line 132, `if patience and no_improvement_count >= patience`:
Python truthiness makes `None` and `0` falsy, so the early-stop test fires only
for a non-null, non-zero `patience` whose value the counter has reached. -/
def patienceTriggers (patience : Option ℕ) (cnt : ℕ) : Bool :=
  match patience with
  | none => false
  | some p => if p = 0 then false else decide (p ≤ cnt)

/-- Source lines 136-141: one batch gradient-descent update.
`dw = (1/N) * np.dot(X_train.T, y_pred - y_train)`,
`db = (1/N) * np.sum(y_pred - y_train)`, then
`weights -= learning_rate * dw` and `bias -= learning_rate * db`. -/
noncomputable def gdUpdate (lr : ℝ) (X_train : Mat) (y_train : List ℝ)
    (w : List ℝ) (b : ℝ) : List ℝ × ℝ :=
  let num_samples := X_train.length
  let y_pred := yPredOn X_train w b
  let err := List.zipWith (fun yp yt => yp - yt) y_pred y_train
  let dw := (matVec (transposeMat X_train) err).map
    (fun x => (1 / (num_samples : ℝ)) * x)
  let db := (1 / (num_samples : ℝ)) * err.sum
  (List.zipWith (fun wj dwj => wj - lr * dwj) w dw, b - lr * db)

/-- Source lines 105-141, the body of one loop iteration: compute the
predictions, run the validation bookkeeping when both validation arrays are
present (the `X_val is not None and y_val is not None` guard of line 116),
break (second component `true`) when the patience test of line 132 fires —
before the gradient update — and otherwise perform the update of
lines 136-141.  The training-loss computation of lines 108-113 feeds only the
printing/plotting I/O and is omitted. -/
noncomputable def fitBody (lr : ℝ) (X_train : Mat) (y_train : List ℝ)
    (X_val : Option Mat) (y_val : Option (List ℝ)) (patience : Option ℕ)
    (s : FitState) : FitState × Bool :=
  match X_val, y_val with
  | some Xv, some yv =>
      let val_loss := lossOn Xv yv s.weights s.bias
      let bc := applyImprovement val_loss s.best_loss s.no_improvement_count
      if patienceTriggers patience bc.2 then
        ({ s with best_loss := bc.1, no_improvement_count := bc.2 }, true)
      else
        let wb := gdUpdate lr X_train y_train s.weights s.bias
        ({ weights := wb.1, bias := wb.2,
           best_loss := bc.1, no_improvement_count := bc.2 }, false)
  | _, _ =>
      let wb := gdUpdate lr X_train y_train s.weights s.bias
      ({ s with weights := wb.1, bias := wb.2 }, false)

/-- Source line 105, `for i in range(self.max_iteration)` with the `break` of
line 134: runs `fitBody` up to `fuel` times, returning the final state, the
number of iterations entered, and whether the loop exited via `break`. -/
noncomputable def fitLoop (lr : ℝ) (X_train : Mat) (y_train : List ℝ)
    (X_val : Option Mat) (y_val : Option (List ℝ)) (patience : Option ℕ) :
    ℕ → FitState → FitState × ℕ × Bool
  | 0, s => (s, 0, false)
  | Nat.succ fuel, s =>
      match fitBody lr X_train y_train X_val y_val patience s with
      | (s1, true) => (s1, 1, true)
      | (s1, false) =>
          let r := fitLoop lr X_train y_train X_val y_val patience fuel s1
          (r.1, r.2.1 + 1, r.2.2)

/-- Source lines 95-97: the parameters at entry of the loop — `num_features`
zeros for the weights (with the feature count read from the first row, as
`X_train.shape` does) and bias `0`. -/
noncomputable def initWB (X_train : Mat) : List ℝ × ℝ :=
  (List.replicate (X_train.headD []).length 0, 0)

/-- The loop state at entry of iteration 0 (source lines 95-103). -/
noncomputable def initState (X_train : Mat) : FitState :=
  { weights := (initWB X_train).1, bias := (initWB X_train).2,
    best_loss := none, no_improvement_count := 0 }

/-- The numerical run of `fit` (source lines 95-141): final loop state, number
of loop iterations entered, and whether the run stopped early. -/
noncomputable def fitRun (self : LogisticRegression) (X_train : Mat)
    (y_train : List ℝ) (X_val : Option Mat) (y_val : Option (List ℝ))
    (patience : Option ℕ) : FitState × ℕ × Bool :=
  fitLoop self.learning_rate X_train y_train X_val y_val patience
    self.max_iteration (initState X_train)

/-- Source lines 70-153, `fit`: mutates `self.weights` and `self.bias` to the
result of the training loop.  `print_loss` and `plot_loss` control only the
omitted printing/plotting I/O. -/
noncomputable def fit (self : LogisticRegression) (X_train : Mat)
    (y_train : List ℝ) (X_val : Option Mat) (y_val : Option (List ℝ))
    (patience : Option ℕ) (print_loss : Bool) (plot_loss : Bool) :
    LogisticRegression :=
  let _ := print_loss
  let _ := plot_loss
  let r := fitRun self X_train y_train X_val y_val patience
  { self with weights := some r.1.weights, bias := some r.1.bias }

/-- Source lines 155-172, `predict`: `sigmoid(np.dot(X_test, w) + b)` per row,
then label `1` exactly for the probabilities strictly above the threshold
(`1 if i > self.threshold else 0`, line 171).  Reading the unset parameters of
a never-fitted model (both `None`) is an error in Python, embedded as `none`. -/
noncomputable def predict (self : LogisticRegression) (X_test : Mat) :
    Option (List ℕ) :=
  match self.weights, self.bias with
  | some w, some b =>
      some ((yPredOn X_test w b).map
        (fun p => if self.threshold < p then 1 else 0))
  | _, _ => none

/-! ### The virtual run

Pure gradient-descent iterates and the validation-bookkeeping sequence they
induce.  These repackage the definitions above so that claims about the loop
can name "the parameters after `i` updates" and "the counter value checked at
iteration `i`"; they are proved to coincide with the run of `fitLoop` below. -/

/-- The parameters after `n` gradient-descent updates (lines 136-141 iterated)
starting from `wb`. -/
noncomputable def gdIter (lr : ℝ) (X_train : Mat) (y_train : List ℝ)
    (wb : List ℝ × ℝ) : ℕ → List ℝ × ℝ
  | 0 => wb
  | Nat.succ n =>
      let p := gdIter lr X_train y_train wb n
      gdUpdate lr X_train y_train p.1 p.2

/-- The validation loss that iteration `i` of `fit` computes (lines 117-120),
as a function of the virtual iterates. -/
noncomputable def valLossSeq (lr : ℝ) (X_train : Mat) (y_train : List ℝ)
    (Xv : Mat) (yv : List ℝ) (i : ℕ) : ℝ :=
  lossOn Xv yv (gdIter lr X_train y_train (initWB X_train) i).1
    (gdIter lr X_train y_train (initWB X_train) i).2

/-- The `(best_loss, no_improvement_count)` pair at entry of iteration `i`
(so `bcSeq … 0 = (none, 0)`, the initialization of lines 102-103). -/
noncomputable def bcSeq (lr : ℝ) (X_train : Mat) (y_train : List ℝ)
    (Xv : Mat) (yv : List ℝ) : ℕ → Option ℝ × ℕ
  | 0 => (none, 0)
  | Nat.succ i =>
      applyImprovement (valLossSeq lr X_train y_train Xv yv i)
        (bcSeq lr X_train y_train Xv yv i).1
        (bcSeq lr X_train y_train Xv yv i).2

/-- The non-improvement counter value that the patience test of line 132
inspects during iteration `i` (the counter after the update of lines 124-129
in that same iteration). -/
noncomputable def cntSeq (lr : ℝ) (X_train : Mat) (y_train : List ℝ)
    (Xv : Mat) (yv : List ℝ) (i : ℕ) : ℕ :=
  (bcSeq lr X_train y_train Xv yv (i + 1)).2

/-- The full loop state at entry of iteration `i` of a validation run. -/
noncomputable def enterState (lr : ℝ) (X_train : Mat) (y_train : List ℝ)
    (Xv : Mat) (yv : List ℝ) (i : ℕ) : FitState :=
  { weights := (gdIter lr X_train y_train (initWB X_train) i).1,
    bias := (gdIter lr X_train y_train (initWB X_train) i).2,
    best_loss := (bcSeq lr X_train y_train Xv yv i).1,
    no_improvement_count := (bcSeq lr X_train y_train Xv yv i).2 }

/-! ### The specification's patience-merge rule (for claim C1 only) -/

/-- Modelled from the spec's words (section 9): the claimed merge rule — the
per-call patience, when non-null, takes precedence; otherwise the
constructor-level default stored at construction is used.  This definition
follows the specification, not the source, and exists only to be compared
with the source's behaviour. -/
def resolvePatience (callPatience ctorPatience : Option ℕ) : Option ℕ :=
  match callPatience with
  | some p => some p
  | none => ctorPatience

/-- Modelled from the spec's words: the run `fit` would perform if the
effective patience were resolved by the claimed merge rule (same loop,
patience resolved through `resolvePatience`).  For comparison with `fitRun`,
which passes the per-call argument through unchanged. -/
noncomputable def fitRunMergedPatience (self : LogisticRegression)
    (X_train : Mat) (y_train : List ℝ) (X_val : Option Mat)
    (y_val : Option (List ℝ)) (patience : Option ℕ) : FitState × ℕ × Bool :=
  fitLoop self.learning_rate X_train y_train X_val y_val
    (resolvePatience patience self.patience) self.max_iteration
    (initState X_train)

/-! ### Shape semantics of the training iteration (for claim C5)

`fit` performs no explicit shape validation; a mismatched `y_train` surfaces
(or not) through the numpy operations of lines 105-141.  The following model
records, for `X_train` of shape `(N, F)` and `y_train` of length `M`, whether
those operations all succeed, using numpy's broadcasting rule for 1-d
elementwise operations (lengths must be equal or one of them must be 1, the
result having the larger length) and the `np.dot` rule for a 2-d times 1-d
product (the row length must equal the vector length).  `weights` has length
`F` by construction (line 96), so the operations not involving `y_train`
always succeed and only `M` versus `N` matters. -/

/-- Result length of a broadcast 1-d elementwise operation on lengths `n` and
`m`, or `none` when numpy raises a dimension-mismatch error. -/
def broadcastLen (n m : ℕ) : Option ℕ :=
  if n = m then some n
  else if n = 1 then some m
  else if m = 1 then some n
  else none

/-- Shape-level run of one training iteration of `fit` (lines 105-141, no
validation data): `some ()` when every numpy operation accepts the shapes,
`none` when one raises.  In order: `np.multiply(y_train, np.log(y_pred))` and
`np.multiply(1 - y_train, np.log(1 - y_pred))` (line 108) broadcast `M`
against `N`; `y_pred - y_train` (lines 137-138) broadcasts `N` against `M`;
`np.dot(X_train.T, y_pred - y_train)` (line 137) needs the broadcast result to
equal `N`, the row length of the `(F, N)` transpose. -/
def fitTrainShapes (N F M : ℕ) : Option Unit := do
  let _ := F
  let _ ← broadcastLen M N
  let _ ← broadcastLen M N
  let e ← broadcastLen N M
  if e = N then some () else none

/-! ### A concrete training scenario

With `X_train = [[0],[0]]` and `y_train = [0,1]` the initial parameters
`w = [0], b = 0` are a fixed point of the gradient update (the two prediction
errors cancel), so the validation loss is the same real number at every
iteration: the first iteration improves on infinity and every later iteration
fails to improve, which exercises the early-stopping bookkeeping without any
transcendental-number comparison. -/

noncomputable def Xc : Mat := [[0], [0]]

noncomputable def yc : List ℝ := [0, 1]

noncomputable def Xvc : Mat := [[0]]

noncomputable def yvc : List ℝ := [1]

/-- The constant validation loss of the scenario. -/
noncomputable def vlC : ℝ := lossOn Xvc yvc [0] 0

/-- A model configured with learning rate 1, 3 iterations and a
constructor-level patience of 1. -/
noncomputable def mC : LogisticRegression :=
  { weights := none, bias := none, threshold := 0.5, learning_rate := 1,
    max_iteration := 3, patience := some 1 }

/-- An already-fitted model with weights `[0]`, bias `0` and threshold `1/2`,
for exercising `predict`. -/
noncomputable def mP : LogisticRegression :=
  { weights := some [0], bias := some 0, threshold := 1 / 2,
    learning_rate := 1, max_iteration := 1, patience := none }

/-- A model with the same learning rate and iteration count as `mC` but
different stale parameters, threshold and stored patience. -/
noncomputable def mD : LogisticRegression :=
  { weights := some [5], bias := some 7, threshold := 0.9,
    learning_rate := 1, max_iteration := 3, patience := none }

/-- The end-to-end AND scenario as a proposition over the exact-real model:
after fitting X_train = [[0,0],[0,1],[1,0],[1,1]], y_train = [0,0,0,1] with
learning rate 0.1, 1000 iterations and no validation data, predict returns
label 1 on [[1,1]] and label 0 on [[0,0]].  Deciding this proposition needs
certified rational bounds on the 1000 gradient-descent iterates through exp
and log; no proof or refutation of it appears in this development. -/
def andScenarioHolds : Prop :=
  let m := LogisticRegression.mkInit 0.1 1000 none 0.5
  let trained := fit m [[0, 0], [0, 1], [1, 0], [1, 1]] [0, 0, 0, 1]
    none none none true true
  predict trained [[1, 1]] = some [1] ∧ predict trained [[0, 0]] = some [0]

/-! ### Basic facts about the sigmoid function -/

theorem sigmoid_pos (z : ℝ) : 0 < sigmoid z := by
  unfold sigmoid
  positivity

theorem sigmoid_lt_one (z : ℝ) : sigmoid z < 1 := by
  unfold sigmoid
  have h := Real.exp_pos (-z)
  rw [div_lt_one (by linarith)]
  linarith

theorem sigmoid_zero : sigmoid 0 = 1 / 2 := by
  unfold sigmoid
  norm_num

theorem sigmoid_add_sigmoid_neg (z : ℝ) : sigmoid z + sigmoid (-z) = 1 := by
  unfold sigmoid
  have h1 := Real.exp_pos (-z)
  have h2 := Real.exp_pos z
  have hmul : Real.exp (-z) * Real.exp z = 1 := by
    rw [← Real.exp_add]
    simp
  rw [neg_neg]
  field_simp
  nlinarith [hmul]

/-! ### List index helpers -/

lemma getD_map {α β : Type} (f : α → β) (l : List α) (i : ℕ) (hi : i < l.length)
    (d : α) (d' : β) : (l.map f).getD i d' = f (l.getD i d) := by
  rw [List.getD_eq_getElem l d hi, List.getD_eq_getElem _ d' (by simpa using hi)]
  simp

lemma getD_zipWith {α β γ : Type} (g : α → β → γ) (l₁ : List α) (l₂ : List β)
    (i : ℕ) (h₁ : i < l₁.length) (h₂ : i < l₂.length) (d₁ : α) (d₂ : β) (d : γ) :
    (List.zipWith g l₁ l₂).getD i d = g (l₁.getD i d₁) (l₂.getD i d₂) := by
  rw [List.getD_eq_getElem l₁ d₁ h₁, List.getD_eq_getElem l₂ d₂ h₂,
    List.getD_eq_getElem _ d (by simp; omega)]
  simp

lemma getD_range (n i : ℕ) (h : i < n) : (List.range n).getD i 0 = i := by
  rw [List.getD_eq_getElem _ _ (by simpa using h)]
  simp

lemma sum_zipWith_getD (g : ℝ → ℝ → ℝ) :
    ∀ (n : ℕ) (l₁ l₂ : List ℝ), l₁.length = n → l₂.length = n →
      (List.zipWith g l₁ l₂).sum
        = ∑ i in Finset.range n, g (l₁.getD i 0) (l₂.getD i 0)
  | 0, l₁, l₂, h₁, h₂ => by
      rw [List.length_eq_zero] at h₁ h₂
      subst h₁; subst h₂; simp
  | Nat.succ n, l₁, l₂, h₁, h₂ => by
      match l₁, l₂ with
      | a :: t₁, b :: t₂ =>
        simp only [List.zipWith_cons_cons, List.sum_cons]
        rw [Finset.sum_range_succ']
        simp only [List.getD_cons_succ, List.getD_cons_zero]
        rw [sum_zipWith_getD g n t₁ t₂ (by simpa using h₁) (by simpa using h₂)]
        ring

/-! ### Control-flow lemmas about the training loop -/

lemma fitBody_snd_patience_none (lr : ℝ) (Xtr : Mat) (ytr : List ℝ)
    (Xv? : Option Mat) (yv? : Option (List ℝ)) (s : FitState) :
    (fitBody lr Xtr ytr Xv? yv? none s).2 = false := by
  rcases Xv? with _ | Xv <;> rcases yv? with _ | yv <;>
    simp [fitBody, patienceTriggers]

lemma fitLoop_patience_none (lr : ℝ) (Xtr : Mat) (ytr : List ℝ)
    (Xv? : Option Mat) (yv? : Option (List ℝ)) :
    ∀ (fuel : ℕ) (s : FitState),
      (fitLoop lr Xtr ytr Xv? yv? none fuel s).2 = (fuel, false)
  | 0, _ => rfl
  | Nat.succ fuel, s => by
      have hb := fitBody_snd_patience_none lr Xtr ytr Xv? yv? s
      rw [fitLoop]
      rcases hfb : fitBody lr Xtr ytr Xv? yv? none s with ⟨s1, brk⟩
      rw [hfb] at hb
      simp only at hb
      subst hb
      simp only
      have := fitLoop_patience_none lr Xtr ytr Xv? yv? fuel s1
      rw [Prod.ext_iff] at this
      simp only [this.1, this.2]

lemma fitBody_no_val (lr : ℝ) (Xtr : Mat) (ytr : List ℝ)
    (Xv? : Option Mat) (yv? : Option (List ℝ)) (p? : Option ℕ) (s : FitState)
    (h : Xv? = none ∨ yv? = none) :
    fitBody lr Xtr ytr Xv? yv? p? s
      = ({ s with weights := (gdUpdate lr Xtr ytr s.weights s.bias).1,
                  bias := (gdUpdate lr Xtr ytr s.weights s.bias).2 }, false) := by
  rcases h with h | h
  · subst h; rfl
  · subst h; rcases Xv? with _ | Xv <;> rfl

lemma fitLoop_no_val (lr : ℝ) (Xtr : Mat) (ytr : List ℝ)
    (Xv? : Option Mat) (yv? : Option (List ℝ)) (p? : Option ℕ)
    (h : Xv? = none ∨ yv? = none) :
    ∀ (fuel : ℕ) (s : FitState),
      (fitLoop lr Xtr ytr Xv? yv? p? fuel s).2 = (fuel, false) ∧
      (fitLoop lr Xtr ytr Xv? yv? p? fuel s).1.best_loss = s.best_loss ∧
      (fitLoop lr Xtr ytr Xv? yv? p? fuel s).1.no_improvement_count
        = s.no_improvement_count
  | 0, _ => ⟨rfl, rfl, rfl⟩
  | Nat.succ fuel, s => by
      rw [fitLoop, fitBody_no_val lr Xtr ytr Xv? yv? p? s h]
      simp only
      have ih := fitLoop_no_val lr Xtr ytr Xv? yv? p? h fuel
        { s with weights := (gdUpdate lr Xtr ytr s.weights s.bias).1,
                 bias := (gdUpdate lr Xtr ytr s.weights s.bias).2 }
      rw [Prod.ext_iff] at ih
      refine ⟨by simp only [ih.1.1, ih.1.2], ?_, ?_⟩ <;> simp [ih.2.1, ih.2.2]

lemma fitBody_break_preserves (lr : ℝ) (Xtr : Mat) (ytr : List ℝ)
    (Xv? : Option Mat) (yv? : Option (List ℝ)) (p? : Option ℕ) (s : FitState)
    (h : (fitBody lr Xtr ytr Xv? yv? p? s).2 = true) :
    (fitBody lr Xtr ytr Xv? yv? p? s).1.weights = s.weights ∧
    (fitBody lr Xtr ytr Xv? yv? p? s).1.bias = s.bias := by
  rcases Xv? with _ | Xv <;> rcases yv? with _ | yv <;>
    simp only [fitBody] at h ⊢
  · exact absurd h (by simp)
  · exact absurd h (by simp)
  · exact absurd h (by simp)
  · split at h <;> split <;> simp_all

lemma fitBody_cont_update (lr : ℝ) (Xtr : Mat) (ytr : List ℝ)
    (Xv? : Option Mat) (yv? : Option (List ℝ)) (p? : Option ℕ) (s : FitState)
    (h : (fitBody lr Xtr ytr Xv? yv? p? s).2 = false) :
    (fitBody lr Xtr ytr Xv? yv? p? s).1.weights
      = (gdUpdate lr Xtr ytr s.weights s.bias).1 ∧
    (fitBody lr Xtr ytr Xv? yv? p? s).1.bias
      = (gdUpdate lr Xtr ytr s.weights s.bias).2 := by
  rcases Xv? with _ | Xv <;> rcases yv? with _ | yv <;>
    simp only [fitBody] at h ⊢
  · exact ⟨trivial, trivial⟩
  · exact ⟨trivial, trivial⟩
  · exact ⟨trivial, trivial⟩
  · split at h <;> split <;> simp_all

lemma gdIter_gdUpdate (lr : ℝ) (Xtr : Mat) (ytr : List ℝ) (w : List ℝ) (b : ℝ) :
    ∀ n : ℕ, gdIter lr Xtr ytr (gdUpdate lr Xtr ytr w b) n
      = gdIter lr Xtr ytr (w, b) (n + 1)
  | 0 => rfl
  | Nat.succ n => by
      show gdUpdate lr Xtr ytr
          (gdIter lr Xtr ytr (gdUpdate lr Xtr ytr w b) n).1
          (gdIter lr Xtr ytr (gdUpdate lr Xtr ytr w b) n).2
        = gdIter lr Xtr ytr (w, b) (n + 1 + 1)
      rw [gdIter_gdUpdate lr Xtr ytr w b n]
      rfl

lemma fitLoop_break_state (lr : ℝ) (Xtr : Mat) (ytr : List ℝ)
    (Xv? : Option Mat) (yv? : Option (List ℝ)) (p? : Option ℕ) :
    ∀ (fuel : ℕ) (s fin : FitState) (n : ℕ),
      fitLoop lr Xtr ytr Xv? yv? p? fuel s = (fin, n, true) →
      1 ≤ n ∧
      fin.weights = (gdIter lr Xtr ytr (s.weights, s.bias) (n - 1)).1 ∧
      fin.bias = (gdIter lr Xtr ytr (s.weights, s.bias) (n - 1)).2
  | 0, s, fin, n, h => by
      rw [fitLoop] at h
      simp at h
  | Nat.succ fuel, s, fin, n, h => by
      rw [fitLoop] at h
      rcases hfb : fitBody lr Xtr ytr Xv? yv? p? s with ⟨s1, brk⟩
      rw [hfb] at h
      cases brk
      · simp only at h
        rcases hr : fitLoop lr Xtr ytr Xv? yv? p? fuel s1 with ⟨fin2, m, brk2⟩
        rw [hr] at h
        simp only [Prod.mk.injEq] at h
        obtain ⟨rfl, rfl, rfl⟩ := h
        have ih := fitLoop_break_state lr Xtr ytr Xv? yv? p? fuel s1 fin2 m hr
        have hcont := fitBody_cont_update lr Xtr ytr Xv? yv? p? s
          (by rw [hfb])
        rw [hfb] at hcont
        simp only at hcont
        have hpair : gdUpdate lr Xtr ytr s.weights s.bias
            = (s1.weights, s1.bias) := by
          rw [hcont.1, hcont.2]
        have hshift := gdIter_gdUpdate lr Xtr ytr s.weights s.bias (m - 1)
        rw [hpair] at hshift
        have hm : m - 1 + 1 = m := by omega
        rw [hm] at hshift
        have hm2 : m + 1 - 1 = m := by omega
        refine ⟨by omega, ?_, ?_⟩
        · rw [ih.2.1, hshift, hm2]
        · rw [ih.2.2, hshift, hm2]
      · simp only [Prod.mk.injEq] at h
        obtain ⟨rfl, rfl, -⟩ := h
        have hpres := fitBody_break_preserves lr Xtr ytr Xv? yv? p? s
          (by rw [hfb])
        rw [hfb] at hpres
        simp only at hpres
        exact ⟨le_refl 1, hpres.1, hpres.2⟩

lemma fitBody_val_bc (lr : ℝ) (Xtr : Mat) (ytr : List ℝ) (Xv : Mat)
    (yv : List ℝ) (p? : Option ℕ) (s : FitState) :
    (fitBody lr Xtr ytr (some Xv) (some yv) p? s).1.best_loss
      = (applyImprovement (lossOn Xv yv s.weights s.bias)
          s.best_loss s.no_improvement_count).1 ∧
    (fitBody lr Xtr ytr (some Xv) (some yv) p? s).1.no_improvement_count
      = (applyImprovement (lossOn Xv yv s.weights s.bias)
          s.best_loss s.no_improvement_count).2 := by
  cases hpt : patienceTriggers p?
      (applyImprovement (lossOn Xv yv s.weights s.bias)
        s.best_loss s.no_improvement_count).2 <;>
    simp [fitBody, hpt]

lemma fitBody_enterState (lr : ℝ) (Xtr : Mat) (ytr : List ℝ)
    (Xv : Mat) (yv : List ℝ) (p? : Option ℕ) (i : ℕ) :
    fitBody lr Xtr ytr (some Xv) (some yv) p? (enterState lr Xtr ytr Xv yv i)
      = if patienceTriggers p? (cntSeq lr Xtr ytr Xv yv i) then
          ({ weights := (gdIter lr Xtr ytr (initWB Xtr) i).1,
             bias := (gdIter lr Xtr ytr (initWB Xtr) i).2,
             best_loss := (bcSeq lr Xtr ytr Xv yv (i + 1)).1,
             no_improvement_count := (bcSeq lr Xtr ytr Xv yv (i + 1)).2 }, true)
        else (enterState lr Xtr ytr Xv yv (i + 1), false) := rfl

lemma fitLoop_first_trigger (lr : ℝ) (Xtr : Mat) (ytr : List ℝ)
    (Xv : Mat) (yv : List ℝ) (p? : Option ℕ) (i₀ : ℕ)
    (htrig : patienceTriggers p? (cntSeq lr Xtr ytr Xv yv i₀) = true)
    (hfirst : ∀ j, j < i₀ → patienceTriggers p? (cntSeq lr Xtr ytr Xv yv j) = false) :
    ∀ (fuel i : ℕ), i ≤ i₀ → i₀ < i + fuel →
      fitLoop lr Xtr ytr (some Xv) (some yv) p? fuel
          (enterState lr Xtr ytr Xv yv i)
        = ({ weights := (gdIter lr Xtr ytr (initWB Xtr) i₀).1,
             bias := (gdIter lr Xtr ytr (initWB Xtr) i₀).2,
             best_loss := (bcSeq lr Xtr ytr Xv yv (i₀ + 1)).1,
             no_improvement_count := (bcSeq lr Xtr ytr Xv yv (i₀ + 1)).2 },
           i₀ - i + 1, true)
  | 0, i, hle, hlt => absurd hlt (by omega)
  | Nat.succ fuel, i, hle, hlt => by
      rw [fitLoop, fitBody_enterState]
      rcases Nat.lt_or_ge i i₀ with hi | hi
      · rw [hfirst i hi]
        simp only [if_false, Bool.false_eq_true]
        have ih := fitLoop_first_trigger lr Xtr ytr Xv yv p? i₀ htrig hfirst
          fuel (i + 1) (by omega) (by omega)
        rw [ih]
        have harith : i₀ - (i + 1) + 1 + 1 = i₀ - i + 1 := by omega
        simp only
        rw [harith]
      · have hii : i = i₀ := by omega
        subst hii
        rw [htrig]
        simp

/-! ### The gradient-descent update, componentwise -/

lemma yPredOn_eq (X : Mat) (w : List ℝ) (b : ℝ) :
    yPredOn X w b = X.map (fun row => sigmoid (dot row w + b)) := by
  unfold yPredOn matVec
  rw [List.map_map, List.map_map]
  rfl

lemma yPredOn_length (X : Mat) (w : List ℝ) (b : ℝ) :
    (yPredOn X w b).length = X.length := by
  rw [yPredOn_eq, List.length_map]

lemma yPredOn_getD (X : Mat) (w : List ℝ) (b : ℝ) (i : ℕ) (hi : i < X.length) :
    (yPredOn X w b).getD i 0 = sigmoid (dot (X.getD i []) w + b) := by
  rw [yPredOn_eq, getD_map _ X i hi []]

lemma gdUpdate_bias_eq (lr : ℝ) (X : Mat) (y w : List ℝ) (b : ℝ)
    (hy : y.length = X.length) :
    (gdUpdate lr X y w b).2
      = b - lr * ((1 / (X.length : ℝ)) *
          ∑ i in Finset.range X.length,
            (sigmoid (dot (X.getD i []) w + b) - y.getD i 0)) := by
  unfold gdUpdate
  simp only
  congr 2
  rw [sum_zipWith_getD _ X.length (yPredOn X w b) y (yPredOn_length X w b) hy]
  congr 1
  exact Finset.sum_congr rfl fun i hi => by
    rw [yPredOn_getD X w b i (Finset.mem_range.mp hi)]

lemma transposeMat_getD (X : Mat) (F j : ℕ) (hF : (X.headD []).length = F)
    (hj : j < F) :
    (transposeMat X).getD j [] = X.map (fun row => row.getD j 0) := by
  unfold transposeMat
  rw [hF, getD_map _ (List.range F) j (by simpa using hj) 0, getD_range F j hj]

lemma dot_col (X : Mat) (v : List ℝ) (j : ℕ) (hv : v.length = X.length) :
    dot (X.map (fun row => row.getD j 0)) v
      = ∑ i in Finset.range X.length, (X.getD i []).getD j 0 * v.getD i 0 := by
  unfold dot
  rw [sum_zipWith_getD _ X.length _ v (by simp) hv]
  exact Finset.sum_congr rfl fun i hi => by
    rw [getD_map _ X i (Finset.mem_range.mp hi) []]

lemma gdUpdate_weights_getD (lr : ℝ) (X : Mat) (y w : List ℝ) (b : ℝ) (F j : ℕ)
    (hF : (X.headD []).length = F) (hw : w.length = F)
    (hy : y.length = X.length) (hj : j < F) :
    (gdUpdate lr X y w b).1.getD j 0
      = w.getD j 0 - lr * ((1 / (X.length : ℝ)) *
          ∑ i in Finset.range X.length,
            (X.getD i []).getD j 0 *
              (sigmoid (dot (X.getD i []) w + b) - y.getD i 0)) := by
  have herrlen : (List.zipWith (fun yp yt => yp - yt) (yPredOn X w b) y).length
      = X.length := by
    rw [List.length_zipWith, yPredOn_length, hy, min_self]
  have htlen : (transposeMat X).length = F := by
    unfold transposeMat
    rw [List.length_map, List.length_range, hF]
  unfold gdUpdate
  simp only
  rw [getD_zipWith _ w _ j (by rw [hw]; exact hj)
    (by rw [List.length_map]; unfold matVec; rw [List.length_map, htlen]; exact hj)
    0 0 0]
  rw [getD_map _ (matVec (transposeMat X) _) j
    (by unfold matVec; rw [List.length_map, htlen]; exact hj) 0]
  unfold matVec
  rw [getD_map _ (transposeMat X) j (by rw [htlen]; exact hj) []]
  rw [transposeMat_getD X F j hF hj]
  rw [dot_col X _ j herrlen]
  have hsum : (∑ i in Finset.range X.length, (X.getD i []).getD j 0 *
        (List.zipWith (fun yp yt => yp - yt) (yPredOn X w b) y).getD i 0)
      = ∑ i in Finset.range X.length, (X.getD i []).getD j 0 *
          (sigmoid (dot (X.getD i []) w + b) - y.getD i 0) := by
    refine Finset.sum_congr rfl fun i hi => ?_
    have hi2 := Finset.mem_range.mp hi
    rw [getD_zipWith _ (yPredOn X w b) y i
      (by rw [yPredOn_length]; exact hi2) (by rw [hy]; exact hi2) 0 0 0]
    rw [yPredOn_getD X w b i hi2]
  rw [hsum]

lemma gdUpdate_fix (lr : ℝ) : gdUpdate lr Xc yc [0] 0 = ([0], 0) := by
  unfold gdUpdate yPredOn matVec transposeMat dot Xc yc
  norm_num [sigmoid_zero]

lemma gdIterZ (lr : ℝ) : ∀ n : ℕ, gdIter lr Xc yc (initWB Xc) n = ([0], 0)
  | 0 => by
      show initWB Xc = ([0], 0)
      unfold initWB Xc
      norm_num
  | Nat.succ n => by
      show gdUpdate lr Xc yc (gdIter lr Xc yc (initWB Xc) n).1
          (gdIter lr Xc yc (initWB Xc) n).2 = ([0], 0)
      rw [gdIterZ lr n]
      exact gdUpdate_fix lr

lemma valLossSeq_const (lr : ℝ) (i : ℕ) : valLossSeq lr Xc yc Xvc yvc i = vlC := by
  unfold valLossSeq vlC
  rw [gdIterZ lr i]

lemma bcSeq_one (lr : ℝ) : bcSeq lr Xc yc Xvc yvc 1 = (some vlC, 0) := by
  show applyImprovement (valLossSeq lr Xc yc Xvc yvc 0)
      (bcSeq lr Xc yc Xvc yvc 0).1 (bcSeq lr Xc yc Xvc yvc 0).2 = (some vlC, 0)
  rw [valLossSeq_const]
  rfl

lemma bcSeq_two (lr : ℝ) : bcSeq lr Xc yc Xvc yvc 2 = (some vlC, 1) := by
  show applyImprovement (valLossSeq lr Xc yc Xvc yvc 1)
      (bcSeq lr Xc yc Xvc yvc 1).1 (bcSeq lr Xc yc Xvc yvc 1).2 = (some vlC, 1)
  rw [valLossSeq_const, bcSeq_one]
  unfold applyImprovement
  simp

lemma cntSeq_zero (lr : ℝ) : cntSeq lr Xc yc Xvc yvc 0 = 0 := by
  unfold cntSeq
  rw [bcSeq_one]

lemma cntSeq_one (lr : ℝ) : cntSeq lr Xc yc Xvc yvc 1 = 1 := by
  unfold cntSeq
  rw [bcSeq_two]

lemma trig_mC : patienceTriggers (some 1) (cntSeq 1 Xc yc Xvc yvc 1) = true := by
  rw [cntSeq_one]
  rfl

lemma first_mC : ∀ j, j < 1 →
    patienceTriggers (some 1) (cntSeq 1 Xc yc Xvc yvc j) = false := by
  intro j hj
  have hj0 : j = 0 := by omega
  subst hj0
  rw [cntSeq_zero]
  rfl

/-- The run of `fit` on the scenario with per-call patience 1: it stops early
during iteration 1 (the second iteration), after 2 loop entries and a single
parameter update. -/
lemma fitRun_mC : fitRun mC Xc yc (some Xvc) (some yvc) (some 1)
    = ({ weights := [0], bias := 0, best_loss := some vlC,
         no_improvement_count := 1 }, 2, true) := by
  have h := fitLoop_first_trigger 1 Xc yc Xvc yvc (some 1) 1 trig_mC first_mC
    3 0 (by omega) (by omega)
  rw [gdIterZ 1 1, bcSeq_two 1] at h
  exact h

/-- The run of `fit` on the scenario with per-call patience `None`: all 3
iterations run and no early stop happens, even though `mC.patience = some 1`. -/
lemma fitRun_mC_none :
    (fitRun mC Xc yc (some Xvc) (some yvc) none).2 = (3, false) :=
  fitLoop_patience_none 1 Xc yc (some Xvc) (some yvc) 3 (initState Xc)

/-- Under the specification's merge rule the same call would resolve the
effective patience to `some 1` and stop after 2 iterations. -/
lemma fitRunMerged_mC_none :
    (fitRunMergedPatience mC Xc yc (some Xvc) (some yvc) none).2 = (2, true) := by
  show (fitRun mC Xc yc (some Xvc) (some yvc) (some 1)).2 = (2, true)
  rw [fitRun_mC]

end LogReg

/-- C9: the sigmoid function of the source (lines 53-68) maps every real into the
open interval (0,1), satisfies `sigmoid 0 = 0.5`, and `sigmoid z + sigmoid (-z) = 1`. -/
theorem sigmoid_spec_c9 :
    (∀ z : ℝ, LogReg.sigmoid z ∈ Set.Ioo (0 : ℝ) 1 ∧
      LogReg.sigmoid z + LogReg.sigmoid (-z) = 1) ∧
    LogReg.sigmoid 0 = 1 / 2 := by
  refine ⟨fun z => ⟨⟨LogReg.sigmoid_pos z, LogReg.sigmoid_lt_one z⟩,
    LogReg.sigmoid_add_sigmoid_neg z⟩, LogReg.sigmoid_zero⟩

/-- C1 (counterexample): the claim that fit resolves the effective patience by
merging the per-call argument with the constructor-level default is false at a
concrete input.  The model stores a constructor-level patience of 1 and fit is
called with a null per-call patience on a validation sequence that stops
improving after its first value: the actual run performs all 3 iterations with
no early stop, while the run using the merge rule described by the
specification stops early after 2 iterations. -/
theorem fit_patience_merge_cex_c1 :
    LogReg.mC.patience = some 1 ∧ LogReg.mC.max_iteration = 3 ∧
    (LogReg.fitRun LogReg.mC LogReg.Xc LogReg.yc (some LogReg.Xvc)
        (some LogReg.yvc) none).2 = (3, false) ∧
    (LogReg.fitRunMergedPatience LogReg.mC LogReg.Xc LogReg.yc (some LogReg.Xvc)
        (some LogReg.yvc) none).2 = (2, true) :=
  ⟨rfl, rfl, LogReg.fitRun_mC_none, LogReg.fitRunMerged_mC_none⟩

/-- C1 (amended): the early-stopping check in fit uses only the per-call
patience argument; the constructor-stored patience is never consulted (the run
is unchanged under any rewrite of the stored field), and a null per-call
patience disables early stopping entirely, so fit runs exactly max_iteration
iterations. -/
theorem fit_ignores_ctor_patience_c1 (m : LogReg.LogisticRegression)
    (q p? : Option ℕ) (Xtr : LogReg.Mat) (ytr : List ℝ)
    (Xv? : Option LogReg.Mat) (yv? : Option (List ℝ)) :
    LogReg.fitRun { m with patience := q } Xtr ytr Xv? yv? p?
        = LogReg.fitRun m Xtr ytr Xv? yv? p? ∧
    (p? = none →
      (LogReg.fitRun m Xtr ytr Xv? yv? p?).2 = (m.max_iteration, false)) := by
  constructor
  · rfl
  · intro h
    subst h
    exact LogReg.fitLoop_patience_none m.learning_rate Xtr ytr Xv? yv?
      m.max_iteration (LogReg.initState Xtr)

/-- C1 (witness): the amended theorem applied to the concrete scenario model
with a rewritten stored patience and a null per-call patience. -/
theorem fit_ignores_ctor_patience_c1_witness :
    LogReg.fitRun { LogReg.mC with patience := some 7 } LogReg.Xc LogReg.yc
        (some LogReg.Xvc) (some LogReg.yvc) none
      = LogReg.fitRun LogReg.mC LogReg.Xc LogReg.yc (some LogReg.Xvc)
          (some LogReg.yvc) none ∧
    ((none : Option ℕ) = none →
      (LogReg.fitRun LogReg.mC LogReg.Xc LogReg.yc (some LogReg.Xvc)
          (some LogReg.yvc) none).2 = (LogReg.mC.max_iteration, false)) :=
  fit_ignores_ctor_patience_c1 LogReg.mC (some 7) none LogReg.Xc LogReg.yc
    (some LogReg.Xvc) (some LogReg.yvc)

/-- C2: when fit is called with validation data and a non-null positive
patience, and the non-improvement counter induced by the run's own validation
losses first reaches patience at an iteration i₀ inside the iteration budget,
fit stops exactly there: it enters i₀+1 ≤ max_iteration iterations and reports
an early stop, so it terminates before completing max_iteration full
iterations.  Moreover the bookkeeping of each iteration resets the counter to
0 and records a new best on a strict improvement of the validation loss, and
increments the counter otherwise. -/
theorem fit_early_stop_c2 (self : LogReg.LogisticRegression)
    (Xtr : LogReg.Mat) (ytr : List ℝ) (Xv : LogReg.Mat) (yv : List ℝ)
    (p i₀ : ℕ) (s : LogReg.FitState) (bl : ℝ)
    (hp : 0 < p) (hi : i₀ < self.max_iteration)
    (htrig : p ≤ LogReg.cntSeq self.learning_rate Xtr ytr Xv yv i₀)
    (hfirst : ∀ j, j < i₀ → LogReg.cntSeq self.learning_rate Xtr ytr Xv yv j < p)
    (hs : s.best_loss = some bl) :
    (LogReg.fitRun self Xtr ytr (some Xv) (some yv) (some p)).2
        = (i₀ + 1, true) ∧
    i₀ + 1 ≤ self.max_iteration ∧
    (LogReg.lossOn Xv yv s.weights s.bias < bl →
      (LogReg.fitBody self.learning_rate Xtr ytr (some Xv) (some yv) (some p)
          s).1.best_loss = some (LogReg.lossOn Xv yv s.weights s.bias) ∧
      (LogReg.fitBody self.learning_rate Xtr ytr (some Xv) (some yv) (some p)
          s).1.no_improvement_count = 0) ∧
    (¬ LogReg.lossOn Xv yv s.weights s.bias < bl →
      (LogReg.fitBody self.learning_rate Xtr ytr (some Xv) (some yv) (some p)
          s).1.no_improvement_count = s.no_improvement_count + 1) := by
  have htrigB : LogReg.patienceTriggers (some p)
      (LogReg.cntSeq self.learning_rate Xtr ytr Xv yv i₀) = true := by
    simp only [LogReg.patienceTriggers]
    rw [if_neg (by omega)]
    exact decide_eq_true htrig
  have hfirstB : ∀ j, j < i₀ → LogReg.patienceTriggers (some p)
      (LogReg.cntSeq self.learning_rate Xtr ytr Xv yv j) = false := by
    intro j hj
    simp only [LogReg.patienceTriggers]
    rw [if_neg (by omega)]
    exact decide_eq_false (by have := hfirst j hj; omega)
  have h := LogReg.fitLoop_first_trigger self.learning_rate Xtr ytr Xv yv
    (some p) i₀ htrigB hfirstB self.max_iteration 0 (by omega) (by omega)
  have hbc := LogReg.fitBody_val_bc self.learning_rate Xtr ytr Xv yv (some p) s
  refine ⟨congrArg (fun t => t.2) h, by omega, ?_, ?_⟩
  · intro himp
    constructor
    · rw [hbc.1, hs]
      simp only [LogReg.applyImprovement]
      rw [if_pos himp]
    · rw [hbc.2, hs]
      simp only [LogReg.applyImprovement]
      rw [if_pos himp]
  · intro himp
    rw [hbc.2, hs]
    simp only [LogReg.applyImprovement]
    rw [if_neg himp]

/-- C2 (witness): the early-stopping theorem applied to the concrete scenario:
patience 1, trigger at iteration 1, stop after 2 of the 3 budgeted
iterations. -/
theorem fit_early_stop_c2_witness :
    (LogReg.fitRun LogReg.mC LogReg.Xc LogReg.yc (some LogReg.Xvc)
        (some LogReg.yvc) (some 1)).2 = (2, true) ∧
    2 ≤ LogReg.mC.max_iteration ∧
    (LogReg.lossOn LogReg.Xvc LogReg.yvc [0] 0 < 1 →
      (LogReg.fitBody LogReg.mC.learning_rate LogReg.Xc LogReg.yc
          (some LogReg.Xvc) (some LogReg.yvc) (some 1)
          { weights := [0], bias := 0, best_loss := some 1,
            no_improvement_count := 0 }).1.best_loss
        = some (LogReg.lossOn LogReg.Xvc LogReg.yvc [0] 0) ∧
      (LogReg.fitBody LogReg.mC.learning_rate LogReg.Xc LogReg.yc
          (some LogReg.Xvc) (some LogReg.yvc) (some 1)
          { weights := [0], bias := 0, best_loss := some 1,
            no_improvement_count := 0 }).1.no_improvement_count = 0) ∧
    (¬ LogReg.lossOn LogReg.Xvc LogReg.yvc [0] 0 < 1 →
      (LogReg.fitBody LogReg.mC.learning_rate LogReg.Xc LogReg.yc
          (some LogReg.Xvc) (some LogReg.yvc) (some 1)
          { weights := [0], bias := 0, best_loss := some 1,
            no_improvement_count := 0 }).1.no_improvement_count = 0 + 1) :=
  fit_early_stop_c2 LogReg.mC LogReg.Xc LogReg.yc LogReg.Xvc LogReg.yvc 1 1
    { weights := [0], bias := 0, best_loss := some 1, no_improvement_count := 0 }
    1 (by norm_num) (by show 1 < 3; norm_num)
    (by rw [LogReg.cntSeq_one])
    (by intro j hj
        have hj0 : j = 0 := by omega
        subst hj0
        rw [LogReg.cntSeq_zero]
        omega)
    rfl

/-- C4: every iteration of fit that does not break performs exactly one batch
gradient-descent step: the new state holds the parameters of gdUpdate, whose
weights satisfy, componentwise, new_w j = w j − lr · (1/N) · Σ_i X i j ·
(sigmoid(X i · w + b) − y i) and whose bias satisfies new_b = b − lr · (1/N) ·
Σ_i (sigmoid(X i · w + b) − y i), with N the number of training samples. -/
theorem fit_update_gd_step_c4 (lr : ℝ) (X : LogReg.Mat) (y w : List ℝ) (b : ℝ)
    (F j : ℕ) (Xv? : Option LogReg.Mat) (yv? : Option (List ℝ)) (p? : Option ℕ)
    (s : LogReg.FitState)
    (hF : (X.headD []).length = F) (hw : w.length = F) (hy : y.length = X.length)
    (hj : j < F) (hsw : s.weights = w) (hsb : s.bias = b)
    (hnb : (LogReg.fitBody lr X y Xv? yv? p? s).2 = false) :
    (LogReg.fitBody lr X y Xv? yv? p? s).1.weights
        = (LogReg.gdUpdate lr X y w b).1 ∧
    (LogReg.fitBody lr X y Xv? yv? p? s).1.bias
        = (LogReg.gdUpdate lr X y w b).2 ∧
    (LogReg.gdUpdate lr X y w b).1.getD j 0
        = w.getD j 0 - lr * ((1 / (X.length : ℝ)) *
            ∑ i in Finset.range X.length,
              (X.getD i []).getD j 0 *
                (LogReg.sigmoid (LogReg.dot (X.getD i []) w + b) - y.getD i 0)) ∧
    (LogReg.gdUpdate lr X y w b).2
        = b - lr * ((1 / (X.length : ℝ)) *
            ∑ i in Finset.range X.length,
              (LogReg.sigmoid (LogReg.dot (X.getD i []) w + b) - y.getD i 0)) := by
  have hcont := LogReg.fitBody_cont_update lr X y Xv? yv? p? s hnb
  refine ⟨?_, ?_, LogReg.gdUpdate_weights_getD lr X y w b F j hF hw hy hj,
    LogReg.gdUpdate_bias_eq lr X y w b hy⟩
  · rw [← hsw, ← hsb]
    exact hcont.1
  · rw [← hsw, ← hsb]
    exact hcont.2

/-- C4 (witness): the gradient-step theorem applied to the one-sample data set
X = [[1]], y = [0] with weights [0], bias 0 and learning rate 1. -/
theorem fit_update_gd_step_c4_witness :
    (LogReg.fitBody 1 [[1]] [0] none none none
        { weights := [0], bias := 0, best_loss := none,
          no_improvement_count := 0 }).1.weights
        = (LogReg.gdUpdate 1 [[1]] [0] [0] 0).1 ∧
    (LogReg.fitBody 1 [[1]] [0] none none none
        { weights := [0], bias := 0, best_loss := none,
          no_improvement_count := 0 }).1.bias
        = (LogReg.gdUpdate 1 [[1]] [0] [0] 0).2 ∧
    (LogReg.gdUpdate 1 [[1]] [0] [0] 0).1.getD 0 0
        = ([(0 : ℝ)]).getD 0 0 - 1 * ((1 / (([[(1 : ℝ)]] : LogReg.Mat).length : ℝ)) *
            ∑ i in Finset.range ([[(1 : ℝ)]] : LogReg.Mat).length,
              (([[(1 : ℝ)]] : LogReg.Mat).getD i []).getD 0 0 *
                (LogReg.sigmoid (LogReg.dot (([[(1 : ℝ)]] : LogReg.Mat).getD i []) [0] + 0)
                  - ([(0 : ℝ)]).getD i 0)) ∧
    (LogReg.gdUpdate 1 [[1]] [0] [0] 0).2
        = 0 - 1 * ((1 / (([[(1 : ℝ)]] : LogReg.Mat).length : ℝ)) *
            ∑ i in Finset.range ([[(1 : ℝ)]] : LogReg.Mat).length,
              (LogReg.sigmoid (LogReg.dot (([[(1 : ℝ)]] : LogReg.Mat).getD i []) [0] + 0)
                - ([(0 : ℝ)]).getD i 0)) :=
  fit_update_gd_step_c4 1 [[1]] [0] [0] 0 1 0 none none none
    { weights := [0], bias := 0, best_loss := none, no_improvement_count := 0 }
    rfl rfl rfl (by norm_num) rfl rfl rfl

/-- C5 (counterexample): the claim that every y_train whose length differs
from N makes fit fail with a dimension mismatch is false: for N = 2 training
samples a y_train of length 1 ≠ 2 broadcasts against the N predictions and
every numpy operation of the training iteration succeeds. -/
theorem fit_shape_mismatch_cex_c5 :
    LogReg.fitTrainShapes 2 1 1 = some () ∧ (1 : ℕ) ≠ 2 := by
  constructor
  · rfl
  · omega

/-- C5 (amended): the training iteration of fit raises a dimension-mismatch
error exactly when the length M of y_train differs from the sample count N and
is also not 1 (a length-1 y_train broadcasts and is accepted). -/
theorem fit_shape_broadcast_c5 (N F M : ℕ) :
    LogReg.fitTrainShapes N F M = none ↔ (M ≠ N ∧ M ≠ 1) := by
  unfold LogReg.fitTrainShapes LogReg.broadcastLen
  split_ifs <;> simp_all

/-- C6: predict labels a sample 1 exactly when its predicted probability
sigmoid(X i · w + b) strictly exceeds the configured threshold; a probability
exactly equal to the threshold yields label 0. -/
theorem predict_threshold_c6 (self : LogReg.LogisticRegression) (w : List ℝ)
    (b : ℝ) (X : LogReg.Mat) (i : ℕ)
    (hw : self.weights = some w) (hb : self.bias = some b) (hi : i < X.length) :
    ∃ L : List ℕ, LogReg.predict self X = some L ∧
      (L.getD i 0 = 1 ↔
        self.threshold < LogReg.sigmoid (LogReg.dot (X.getD i []) w + b)) ∧
      (LogReg.sigmoid (LogReg.dot (X.getD i []) w + b) = self.threshold →
        L.getD i 0 = 0) := by
  have hLi : ((LogReg.yPredOn X w b).map
        (fun p => if self.threshold < p then (1 : ℕ) else 0)).getD i 0
      = if self.threshold < LogReg.sigmoid (LogReg.dot (X.getD i []) w + b)
        then 1 else 0 := by
    rw [LogReg.getD_map _ (LogReg.yPredOn X w b) i
      (by rw [LogReg.yPredOn_length]; exact hi) 0]
    rw [LogReg.yPredOn_getD X w b i hi]
  refine ⟨(LogReg.yPredOn X w b).map
      (fun p => if self.threshold < p then 1 else 0), ?_, ?_, ?_⟩
  · unfold LogReg.predict
    rw [hw, hb]
  · rw [hLi]
    by_cases hc : self.threshold < LogReg.sigmoid (LogReg.dot (X.getD i []) w + b) <;>
      simp [hc]
  · intro heq
    rw [hLi, heq, if_neg (lt_irrefl _)]

/-- C6 (witness): the threshold theorem applied to a fitted model with weights
[0], bias 0, threshold 1/2 and the single test sample [3]; the predicted
probability is sigmoid 0 = 1/2, exactly the threshold, so the label is 0. -/
theorem predict_threshold_c6_witness :
    ∃ L : List ℕ, LogReg.predict LogReg.mP [[3]] = some L ∧
      (L.getD 0 0 = 1 ↔ LogReg.mP.threshold <
        LogReg.sigmoid (LogReg.dot (([[3]] : LogReg.Mat).getD 0 []) [0] + 0)) ∧
      (LogReg.sigmoid (LogReg.dot (([[3]] : LogReg.Mat).getD 0 []) [0] + 0)
          = LogReg.mP.threshold → L.getD 0 0 = 0) :=
  predict_threshold_c6 LogReg.mP [0] 0 [[3]] 0 rfl rfl (by norm_num)

/-- C7: fit is deterministic and independent of the pre-call parameter state:
two models that agree on learning rate and iteration count (whatever their
stale weights, bias, threshold or stored patience) produce the identical run
and identical trained weights and bias on identical inputs, because fit
reinitializes the parameters to zeros and its loop contains no randomness. -/
theorem fit_deterministic_c7 (m1 m2 : LogReg.LogisticRegression)
    (Xtr : LogReg.Mat) (ytr : List ℝ) (Xv? : Option LogReg.Mat)
    (yv? : Option (List ℝ)) (p? : Option ℕ) (pl1 pl2 pt1 pt2 : Bool)
    (hlr : m1.learning_rate = m2.learning_rate)
    (hmi : m1.max_iteration = m2.max_iteration) :
    LogReg.fitRun m1 Xtr ytr Xv? yv? p? = LogReg.fitRun m2 Xtr ytr Xv? yv? p? ∧
    (LogReg.fit m1 Xtr ytr Xv? yv? p? pl1 pt1).weights
      = (LogReg.fit m2 Xtr ytr Xv? yv? p? pl2 pt2).weights ∧
    (LogReg.fit m1 Xtr ytr Xv? yv? p? pl1 pt1).bias
      = (LogReg.fit m2 Xtr ytr Xv? yv? p? pl2 pt2).bias := by
  have h : LogReg.fitRun m1 Xtr ytr Xv? yv? p?
      = LogReg.fitRun m2 Xtr ytr Xv? yv? p? := by
    unfold LogReg.fitRun
    rw [hlr, hmi]
  refine ⟨h, ?_, ?_⟩
  · show some (LogReg.fitRun m1 Xtr ytr Xv? yv? p?).1.weights
      = some (LogReg.fitRun m2 Xtr ytr Xv? yv? p?).1.weights
    rw [h]
  · show some (LogReg.fitRun m1 Xtr ytr Xv? yv? p?).1.bias
      = some (LogReg.fitRun m2 Xtr ytr Xv? yv? p?).1.bias
    rw [h]

/-- C7 (witness): determinism applied to two concrete models sharing learning
rate 1 and iteration count 3, one freshly constructed and one carrying stale
weights [5], bias 7, a different threshold and a different stored patience. -/
theorem fit_deterministic_c7_witness :
    LogReg.fitRun LogReg.mC LogReg.Xc LogReg.yc none none none
      = LogReg.fitRun LogReg.mD LogReg.Xc LogReg.yc none none none ∧
    (LogReg.fit LogReg.mC LogReg.Xc LogReg.yc none none none true true).weights
      = (LogReg.fit LogReg.mD LogReg.Xc LogReg.yc none none none false false).weights ∧
    (LogReg.fit LogReg.mC LogReg.Xc LogReg.yc none none none true true).bias
      = (LogReg.fit LogReg.mD LogReg.Xc LogReg.yc none none none false false).bias :=
  fit_deterministic_c7 LogReg.mC LogReg.mD LogReg.Xc LogReg.yc none none none
    true false true false rfl rfl

/-- C8: validation monitoring and early stopping happen only when both X_val
and y_val are supplied: if either is missing, fit runs exactly max_iteration
iterations with no early stop for every patience value, and the validation
bookkeeping is never touched (the best loss stays at its infinite initial
value and the counter stays 0). -/
theorem fit_val_guard_c8 (self : LogReg.LogisticRegression) (Xtr : LogReg.Mat)
    (ytr : List ℝ) (Xv? : Option LogReg.Mat) (yv? : Option (List ℝ))
    (p? : Option ℕ) (h : Xv? = none ∨ yv? = none) :
    (LogReg.fitRun self Xtr ytr Xv? yv? p?).2 = (self.max_iteration, false) ∧
    (LogReg.fitRun self Xtr ytr Xv? yv? p?).1.best_loss = none ∧
    (LogReg.fitRun self Xtr ytr Xv? yv? p?).1.no_improvement_count = 0 :=
  LogReg.fitLoop_no_val self.learning_rate Xtr ytr Xv? yv? p? h
    self.max_iteration (LogReg.initState Xtr)

/-- C8 (witness): the guard theorem applied to a call that passes X_val but no
y_val together with patience 1: the run still performs all 3 iterations. -/
theorem fit_val_guard_c8_witness :
    (LogReg.fitRun LogReg.mC LogReg.Xc LogReg.yc (some LogReg.Xvc) none
        (some 1)).2 = (LogReg.mC.max_iteration, false) ∧
    (LogReg.fitRun LogReg.mC LogReg.Xc LogReg.yc (some LogReg.Xvc) none
        (some 1)).1.best_loss = none ∧
    (LogReg.fitRun LogReg.mC LogReg.Xc LogReg.yc (some LogReg.Xvc) none
        (some 1)).1.no_improvement_count = 0 :=
  fit_val_guard_c8 LogReg.mC LogReg.Xc LogReg.yc (some LogReg.Xvc) none
    (some 1) (Or.inr rfl)

/-- C10: when fit stops early, the break of line 134 happens before the
gradient computation and update of that iteration: if the run breaks after n
loop entries, the final weights and bias are exactly the pure gradient-descent
iterate after n−1 updates from the all-zero initialization — the stopping
iteration itself leaves the parameters unchanged. -/
theorem fit_break_before_update_c10 (self : LogReg.LogisticRegression)
    (Xtr : LogReg.Mat) (ytr : List ℝ) (Xv? : Option LogReg.Mat)
    (yv? : Option (List ℝ)) (p? : Option ℕ) (s : LogReg.FitState) (n : ℕ)
    (h : LogReg.fitRun self Xtr ytr Xv? yv? p? = (s, n, true)) :
    1 ≤ n ∧
    s.weights = (LogReg.gdIter self.learning_rate Xtr ytr
      (LogReg.initWB Xtr) (n - 1)).1 ∧
    s.bias = (LogReg.gdIter self.learning_rate Xtr ytr
      (LogReg.initWB Xtr) (n - 1)).2 :=
  LogReg.fitLoop_break_state self.learning_rate Xtr ytr Xv? yv? p?
    self.max_iteration (LogReg.initState Xtr) s n h

/-- C10 (witness): the break theorem applied to the concrete early-stopping
run, which breaks during its second loop entry: the final parameters equal the
pure gradient-descent iterate after a single update. -/
theorem fit_break_before_update_c10_witness :
    1 ≤ 2 ∧
    ([(0 : ℝ)] : List ℝ) = (LogReg.gdIter LogReg.mC.learning_rate LogReg.Xc
      LogReg.yc (LogReg.initWB LogReg.Xc) (2 - 1)).1 ∧
    (0 : ℝ) = (LogReg.gdIter LogReg.mC.learning_rate LogReg.Xc LogReg.yc
      (LogReg.initWB LogReg.Xc) (2 - 1)).2 :=
  fit_break_before_update_c10 LogReg.mC LogReg.Xc LogReg.yc (some LogReg.Xvc)
    (some LogReg.yvc) (some 1)
    { weights := [0], bias := 0, best_loss := some LogReg.vlC,
      no_improvement_count := 1 } 2 LogReg.fitRun_mC
